import Mathlib

/-!
Verification development for the retrieval pipeline of the PDF Q&A RAG
repository (backend/utils/chunker.js, backend/utils/embeddings.js,
backend/server.js and the in-memory vectorStore).

JavaScript strings are modelled as `List Char`; character offsets use `Int`
(JS number arithmetic on integers is exact in the ranges involved); vector
components use `ℚ` (exact arithmetic standing in for IEEE doubles, with the
irrational square root of the cosine denominator tracked symbolically).
-/

/-- The whitespace characters removed by `String.prototype.trim`
(ASCII subset; the unicode space classes are not exercised by this code). -/
def isJsSpace (c : Char) : Bool :=
  c = ' ' || c = '\n' || c = '\t' || c = '\r' || c = '\x0b' || c = '\x0c'

/-- Model of `s.trim()`: drop whitespace from both ends. -/
def jsTrim (s : List Char) : List Char :=
  ((s.dropWhile isJsSpace).reverse.dropWhile isJsSpace).reverse

/-- Worker for `splitBlank`.  The `Bool` is true while a run of newlines that
started with a blank line (`\n\n`) is still being consumed, matching the
greedy regex `/\n\n+/` used by `text.split` in chunker.js.  `acc` holds the
characters of the current piece in reverse. -/
def sbAux : Bool → List Char → List Char → List (List Char)
  | _, [], acc => [acc.reverse]
  | false, '\n' :: '\n' :: rest, acc => acc.reverse :: sbAux true rest []
  | true, '\n' :: rest, acc => sbAux true rest acc
  | _, c :: rest, acc => sbAux false rest (c :: acc)

/-- Model of `text.split(/\n\n+/)` from chunker.js line 19. -/
def splitBlank (s : List Char) : List (List Char) :=
  sbAux false s []

/-- Worker for `jsIndexOf`, scanning for the first index where `pat`
is a leading run of the remaining text. -/
def jsIndexOfAux (pat : List Char) : List Char → Nat → Int
  | [], i => if pat.isEmpty then (i : Int) else -1
  | s@(_ :: t), i => if pat.isPrefixOf s then (i : Int) else jsIndexOfAux pat t (i + 1)

/-- Model of `s.indexOf(pat)`: index of the first occurrence of `pat`
in `s`, or `-1` when there is none. -/
def jsIndexOf (s pat : List Char) : Int :=
  jsIndexOfAux pat s 0

/-- Model of `s.slice(-k)` for a non-negative integer `k`: the trailing `k`
characters. JS `-0` equals `0`, and `s.slice(0)` is the whole string,
hence the special case. -/
def jsSliceNeg (s : List Char) (k : Nat) : List Char :=
  if k = 0 then s else s.drop (s.length - k)

/-- `paragraphRange` in chunker.js is either a single paragraph number or a
`"start-end"` string. -/
inductive PRange where
  | single (n : Nat)
  | between (a b : Nat)
deriving DecidableEq, Repr

/-- The `metadata` object stored with every chunk (chunker.js lines 36-45). -/
structure ChunkMeta where
  page : Int
  paragraphNumber : Nat
  paragraphRange : PRange
  startChar : Int
  endChar : Int
  chunkLength : Nat
deriving DecidableEq, Repr

/-- A chunk record pushed onto `allChunks` (chunker.js lines 33-46). -/
structure Chunk where
  text : List Char
  chunkIndex : Nat
  metadata : ChunkMeta
deriving DecidableEq, Repr

/-- A page record as produced by `extractPagesFromPDF` (server.js):
`{pageNumber, text, startChar, endChar}`.  The chunker reads every field
except `endChar`. -/
structure Page where
  pageNumber : Int
  text : List Char
  startChar : Int
  endChar : Int
deriving DecidableEq, Repr

/-- The per-page mutable locals of `splitIntoChunksWithMetadata`
(chunker.js lines 21-24). -/
structure PState where
  currentChunk : List Char
  chunkStartChar : Int
  paragraphNumber : Nat
  chunkStartParagraph : Nat
deriving DecidableEq, Repr

/-- Both `allChunks.push` sites in chunker.js build the same record shape:
the trimmed buffer as `text`, and metadata measured on the untrimmed
buffer (`endChar = chunkStartChar + currentChunk.length`,
`chunkLength = currentChunk.length`). -/
def mkChunkFromBuffer (idx : Nat) (page : Int) (csp : Nat) (pr : PRange)
    (startC : Int) (buf : List Char) : Chunk :=
  { text := jsTrim buf
    chunkIndex := idx
    metadata :=
      { page := page
        paragraphNumber := csp
        paragraphRange := pr
        startChar := startC
        endChar := startC + (buf.length : Int)
        chunkLength := buf.length } }

/-- `paragraphRange` at the mid-page emission site (chunker.js lines 39-41):
`chunkStartParagraph === paragraphNumber - 1 ? chunkStartParagraph :
`${chunkStartParagraph}-${paragraphNumber - 1}`` where `paragraphNumber`
has already been incremented for the incoming paragraph. -/
def midRange (csp pnum : Nat) : PRange :=
  if csp = pnum - 1 then .single csp else .between csp (pnum - 1)

/-- `paragraphRange` at the end-of-page flush site (chunker.js lines 80-82). -/
def flushRange (csp pnum : Nat) : PRange :=
  if csp = pnum then .single csp else .between csp pnum

/-- State update shared by both arms of the `if/else` that starts a new
buffer after an emission attempt (chunker.js lines 49-59): seed with the
trailing `overlap` characters when the buffer is longer than `overlap`,
otherwise restart from the bare paragraph; either way
`chunkStartParagraph` becomes the current paragraph number. -/
def reseedState (txt : List Char) (pstart : Int) (overlap : Nat)
    (p : List Char) (pnum : Nat) (st : PState) : PState :=
  if st.currentChunk.length > overlap then
    let newChunk := jsSliceNeg st.currentChunk overlap ++ ('\n' :: '\n' :: []) ++ p
    { currentChunk := newChunk
      chunkStartChar :=
        st.chunkStartChar + (newChunk.length : Int) - (overlap : Int) - (p.length : Int)
      paragraphNumber := pnum
      chunkStartParagraph := pnum }
  else
    { currentChunk := p
      chunkStartChar := pstart + jsIndexOf txt p
      paragraphNumber := pnum
      chunkStartParagraph := pnum }

/-- The `for (let i = 0; ...)` paragraph loop of chunker.js (lines 26-70),
threading the page-local state, the list of chunks emitted so far on this
page (in order), and the `globalChunkIndex` counter `k`. -/
def procPars (page : Int) (txt : List Char) (pstart : Int)
    (chunkSize overlap : Nat) :
    List (List Char) → PState → Nat → List Chunk × PState × Nat
  | [], st, k => ([], st, k)
  | p :: ps, st, k =>
    let pnum := st.paragraphNumber + 1
    if st.currentChunk.length + p.length > chunkSize then
      if 0 < (jsTrim st.currentChunk).length then
        let c := mkChunkFromBuffer k page st.chunkStartParagraph
          (midRange st.chunkStartParagraph pnum) st.chunkStartChar st.currentChunk
        let r := procPars page txt pstart chunkSize overlap ps
          (reseedState txt pstart overlap p pnum st) (k + 1)
        (c :: r.1, r.2)
      else
        procPars page txt pstart chunkSize overlap ps
          (reseedState txt pstart overlap p pnum st) k
    else
      if st.currentChunk.length > 0 then
        procPars page txt pstart chunkSize overlap ps
          { st with
            currentChunk := st.currentChunk ++ ('\n' :: '\n' :: []) ++ p
            paragraphNumber := pnum } k
      else
        procPars page txt pstart chunkSize overlap ps
          { currentChunk := p
            chunkStartChar := pstart + jsIndexOf txt p
            paragraphNumber := pnum
            chunkStartParagraph := pnum } k

/-- One iteration of the `for (const page of pages)` loop (chunker.js lines
15-89): split into paragraphs, run the paragraph loop from the fresh state,
then flush the remaining buffer if its trimmed text is non-empty. -/
def procPage (chunkSize overlap : Nat) (pg : Page) (k : Nat) : List Chunk × Nat :=
  let paragraphs := (splitBlank pg.text).filter (fun p => 0 < (jsTrim p).length)
  let r := procPars pg.pageNumber pg.text pg.startChar chunkSize overlap paragraphs
    ⟨[], pg.startChar, 0, 0⟩ k
  let st := r.2.1
  let k1 := r.2.2
  if 0 < (jsTrim st.currentChunk).length then
    (r.1 ++ [mkChunkFromBuffer k1 pg.pageNumber st.chunkStartParagraph
      (flushRange st.chunkStartParagraph st.paragraphNumber)
      st.chunkStartChar st.currentChunk], k1 + 1)
  else
    (r.1, k1)

/-- The page loop, threading the global chunk counter across pages. -/
def procPages (chunkSize overlap : Nat) : List Page → Nat → List Chunk
  | [], _ => []
  | pg :: pgs, k =>
    let r := procPage chunkSize overlap pg k
    r.1 ++ procPages chunkSize overlap pgs r.2

/-- Model of `splitIntoChunksWithMetadata(pages, chunkSize, overlap)` from
chunker.js (the JS defaults are `chunkSize = 1000`, `overlap = 200`). -/
def splitIntoChunksWithMetadata (pages : List Page) (chunkSize overlap : Nat) :
    List Chunk :=
  procPages chunkSize overlap pages 0

/-! ## Embedding gateway (backend/utils/embeddings.js) -/

/-- The batch loop of `generateEmbeddings` (embeddings.js lines 25-44):
slices of `batchSize = 100` texts are embedded (order-preserving
`Promise.all` over `batch.map`) and concatenated onto `allEmbeddings`.
`embed` stands for the remote call
`embeddingModel.embedContent(text).embedding.values`, assumed to succeed
(the claim excludes remote embedding-service failures). -/
def batchLoop (embed : String → List ℚ) : List String → List (List ℚ)
  | [] => []
  | t :: ts =>
    ((t :: ts).take 100).map embed ++ batchLoop embed ((t :: ts).drop 100)
termination_by l => l.length
decreasing_by
  simp only [List.length_drop, List.length_cons]
  omega

/-- Model of `generateEmbeddings(texts)` (embeddings.js lines 15-55).  After
the loop the function logs `allEmbeddings[0].length`; when `texts` is empty
that indexes `undefined` and the resulting TypeError is re-thrown by the
catch block as a wrapped embedding failure. -/
def generateEmbeddings (embed : String → List ℚ) (texts : List String) :
    Except String (List (List ℚ)) :=
  let all := batchLoop embed texts
  if all.isEmpty then
    .error "Failed to generate embeddings: Cannot read properties of undefined (reading 'length')"
  else
    .ok all

/-- `dotProduct` accumulated by the loop in `cosineSimilarity`
(embeddings.js lines 88-92); the loop runs over equal-length vectors. -/
def dotProduct : List ℚ → List ℚ → ℚ
  | x :: xs, y :: ys => x * y + dotProduct xs ys
  | _, _ => 0

/-- `normA`/`normB` accumulated by the same loop: the sum of squares
(the squared Euclidean norm). -/
def sumSquares : List ℚ → ℚ
  | [] => 0
  | x :: xs => x * x + sumSquares xs

/-- An idealized JS floating-point value produced by
`dotProduct / (Math.sqrt(normA) * Math.sqrt(normB))`:
`fin c d` denotes the real number `c * Real.sqrt d` (the division result
`dot / √(nA·nB)` is stored as `(dot/(nA·nB))·√(nA·nB)` to keep the model
executable), and `nan`/`posInf`/`negInf` are the IEEE non-finite results of
dividing by a zero denominator. -/
inductive JsNum where
  | nan
  | posInf
  | negInf
  | fin (c : ℚ) (d : ℚ)
deriving DecidableEq, Repr

/-- The real number denoted by a finite `JsNum`; non-finite values denote
no real number. -/
def JsNum.isReal : JsNum → ℝ → Prop
  | .fin c d, x => x = (c : ℝ) * Real.sqrt (d : ℝ)
  | _, _ => False

/-- Model of `cosineSimilarity(vecA, vecB)` (embeddings.js lines 79-96):
throws on a length mismatch, otherwise returns
`dot / (√normA * √normB)` as an idealized JS number.  The denominator
`√normA * √normB = √(normA·normB)` is zero exactly when `normA * normB = 0`,
in which case JS division yields NaN (for a zero numerator) or a signed
infinity. -/
def cosineSimilarity (vecA vecB : List ℚ) : Except String JsNum :=
  if vecA.length ≠ vecB.length then
    .error "Vectors must have same length"
  else
    let dot := dotProduct vecA vecB
    let nA := sumSquares vecA
    let nB := sumSquares vecB
    if nA * nB = 0 then
      if dot = 0 then .ok .nan
      else if 0 < dot then .ok .posInf
      else .ok .negInf
    else
      .ok (.fin (dot / (nA * nB)) (nA * nB))

/-! ## Descending stable sort

Both search paths sort with the comparator `(a, b) => b.score - a.score`,
i.e. stable descending order by score; modelled as an insertion sort that
inserts after equal keys. -/

/-- Insert `x` before the first element whose key is strictly smaller. -/
def insDesc {α : Type} (key : α → ℚ) (x : α) : List α → List α
  | [] => [x]
  | y :: ys => if key y < key x then x :: y :: ys else y :: insDesc key x ys

/-- Stable sort into non-increasing key order. -/
def sortDesc {α : Type} (key : α → ℚ) : List α → List α
  | [] => []
  | x :: xs => insDesc key x (sortDesc key xs)

/-! ## Server (backend/server.js) and the in-memory vector store -/

/-- A document of the `vectors` collection (server.js lines 194-208):
`{docId, chunkIndex, text, embedding, metadata, createdAt}`
(`createdAt` is never read back and is omitted). -/
structure VecRecord where
  docId : String
  chunkIndex : Nat
  text : List Char
  embedding : List ℚ
  metadata : ChunkMeta
deriving DecidableEq, Repr

/-- A `{text, metadata, score}` element of `relevantChunks` in the
`/api/ask` handler. -/
structure ScoredChunk where
  text : List Char
  metadata : ChunkMeta
  score : ℚ
deriving DecidableEq, Repr

/-- The record shape built per chunk in the fallback branch
(server.js lines 292-296). -/
def scoredOf (sim : List ℚ → List ℚ → ℚ) (qv : List ℚ) (r : VecRecord) :
    ScoredChunk :=
  ⟨r.text, r.metadata, sim qv r.embedding⟩

/-- The brute-force fallback search of the `/api/ask` handler (server.js
lines 285-299): load at most the first 50 records of the requested `docId`,
score each against the question embedding, sort descending by score, keep
the first `topK`.  `sim` abstracts the rational value of
`cosineSimilarity(questionEmbedding, chunk.embedding)`; the ordering and
shape properties below hold for every score function. -/
def fallbackSearch (sim : List ℚ → List ℚ → ℚ) (store : List VecRecord)
    (docId : String) (qv : List ℚ) (topK : Nat) : List ScoredChunk :=
  let allChunks := (store.filter (fun r => r.docId == docId)).take 50
  let chunksWithScores := allChunks.map (scoredOf sim qv)
  (sortDesc (fun c => c.score) chunksWithScores).take topK

/-- A document of the `documents` collection (server.js lines 179-187). -/
structure DocumentRecord where
  filename : String
  textLength : Nat
  chunkCount : Nat
  totalPages : Nat
  status : String
deriving DecidableEq, Repr

/-- One element of the `sources` array of a successful `/api/ask` response
(server.js lines 362-370).  The `|| "N/A"` / `|| 0` fallbacks for missing
metadata are not modelled (metadata is always present on stored records). -/
structure SourceItem where
  sourceNumber : Nat
  page : Int
  paragraphNumber : Nat
  text : List Char
  similarity : ℚ
  startChar : Int
  endChar : Int
deriving DecidableEq, Repr

/-- The possible responses of the `/api/ask` route: 400 for missing fields,
404 for an unknown document, or the JSON answer payload (the echoed
`question`/`docId`/`model`/... fields carry no information and are
omitted). -/
inductive AskResponse where
  | badRequest (error : String)
  | notFound (error : String)
  | answerJson (answer : List Char) (sources : List SourceItem)
deriving DecidableEq, Repr

/-- The fixed informational answer returned when retrieval finds zero
chunks (server.js lines 302-310). -/
def noInfoAnswer : List Char :=
  ("No relevant information found. Please check if:\n1. Vector search index is created in MongoDB Atlas\n2. The document was uploaded successfully\n3. Your question relates to the document content").toList

/-- `chunk.metadata?.page || 'Unknown'` rendered into the prompt context:
JS prints the number unless it is falsy (0). -/
def pageLabel (n : Int) : List Char :=
  if n = 0 then "Unknown".toList else (toString n).toList

/-- `chunk.metadata?.paragraphNumber || 'Unknown'` rendered into the
prompt context. -/
def paraLabel (n : Nat) : List Char :=
  if n = 0 then "Unknown".toList else (toString n).toList

/-- One `[Source N - Page P, Para Q]\n<text truncated to 800>` block of the
prompt context (server.js lines 320-331). -/
def contextBlock (idx : Nat) (c : ScoredChunk) : List Char :=
  "[Source ".toList ++ (toString (idx + 1)).toList ++ " - Page ".toList ++
    pageLabel c.metadata.page ++ ", Para ".toList ++
    paraLabel c.metadata.paragraphNumber ++ "]\n".toList ++
    (if 800 < c.text.length then c.text.take 800 ++ "...".toList else c.text)

/-- `relevantChunks.map(...).join(" ")`. -/
def contextOf (cs : List ScoredChunk) : List Char :=
  List.intercalate " ".toList (cs.enum.map (fun e => contextBlock e.1 e.2))

/-- The generation prompt (server.js lines 335-347). -/
def promptOf (context question : List Char) : List Char :=
  "Based on these document excerpts, answer the question.\nDocument Excerpts:\n".toList ++
    context ++ "\n\nQuestion: ".toList ++ question ++
    "\n\nInstructions:\n- Answer ONLY using information from the excerpts above\n- Cite sources like [Source 1 - Page 3, Para 2]\n- If the answer is not in the excerpts, say so clearly\n- Be concise and specific\n\nAnswer:".toList

/-- The `sources` array of a successful answer (server.js lines 362-370):
each chunk text is truncated to 300 characters and suffixed `"..."`. -/
def buildSources (cs : List ScoredChunk) : List SourceItem :=
  cs.enum.map (fun e =>
    { sourceNumber := e.1 + 1
      page := e.2.metadata.page
      paragraphNumber := e.2.metadata.paragraphNumber
      text := e.2.text.take 300 ++ "...".toList
      similarity := e.2.score
      startChar := e.2.metadata.startChar
      endChar := e.2.metadata.endChar })

/-- The chunks retrieved by `/api/ask`: the `$vectorSearch` aggregation
result when the primary backend succeeds, otherwise the brute-force
fallback (server.js lines 256-300).  `primary` is the outcome of the
remote aggregation call. -/
def relevantChunksOf (primary : Except String (List ScoredChunk))
    (sim : List ℚ → List ℚ → ℚ) (store : List VecRecord)
    (docId : String) (qv : List ℚ) : List ScoredChunk :=
  match primary with
  | .ok cs => cs
  | .error _ => fallbackSearch sim store docId qv 3

/-- Model of the `/api/ask` handler (server.js lines 235-383).  `docs` is
`documentsCollection.findOne({_id})`; `qv` the question embedding returned
by `generateSingleEmbedding`; `generate` the remote
`chatModel.generateContent(prompt).response.text()`.  Falsy (empty) `docId`
or `question` is rejected with 400; an unknown document with 404; zero
retrieved chunks short-circuit with the fixed informational answer and no
sources; otherwise the prompt is built and the generation collaborator is
invoked once. -/
def askHandler (docs : String → Option DocumentRecord)
    (store : List VecRecord) (sim : List ℚ → List ℚ → ℚ) (qv : List ℚ)
    (primary : Except String (List ScoredChunk))
    (generate : List Char → List Char)
    (docId question : String) : AskResponse :=
  if docId = "" ∨ question = "" then
    .badRequest "Missing docId or question"
  else
    match docs docId with
    | none => .notFound "Document not found"
    | some _ =>
      let relevantChunks := relevantChunksOf primary sim store docId qv
      if relevantChunks.isEmpty then
        .answerJson noInfoAnswer []
      else
        let context := contextOf relevantChunks
        let answer := generate (promptOf context question.toList)
        .answerJson answer (buildSources relevantChunks)

/-- Model of the `DELETE /api/document/:docId` route (server.js lines
410-424): remove every vector record of `docId`, remove the document
record, respond with the fixed success message (deletion of an absent id
matches nothing and still succeeds). -/
def mongoDeleteRoute (store : List VecRecord)
    (docs : String → Option DocumentRecord) (docId : String) :
    List VecRecord × (String → Option DocumentRecord) × String :=
  (store.filter (fun r => !(r.docId == docId)),
   fun k => if k = docId then none else docs k,
   "Document deleted successfully")

namespace VectorStore

/-- An enriched chunk held by the in-memory `VectorStore`
(vectorStore-v5.js lines 530-542). -/
structure StoredChunk where
  text : List Char
  embedding : List ℚ
  chunkIndex : Nat
  metadata : ChunkMeta
deriving DecidableEq, Repr

/-- The `Map` backing the store, as a partial lookup from `docId` to its
chunk list. -/
def VStore : Type := String → Option (List StoredChunk)

/-- An input chunk of `addDocuments`: `{text, chunkIndex, metadata}`. -/
structure InChunk where
  text : List Char
  chunkIndex : Nat
  metadata : ChunkMeta
deriving DecidableEq, Repr

/-- The enrichment of one chunk with its embedding
(vectorStore-v5.js lines 530-542). -/
def enrich (chunk : InChunk) (embedding : List ℚ) : StoredChunk :=
  ⟨chunk.text, embedding, chunk.chunkIndex, chunk.metadata⟩

/-- Model of `VectorStore.addDocuments(docId, chunks, embeddings)`
(vectorStore-v5.js lines 525-548): throws on a count mismatch, otherwise
`this.store.set(docId, enrichedChunks)` — the entry for `docId` is
replaced wholesale and no other entry is touched.  The JS
`chunks.map((chunk, idx) => ... embeddings[idx])` over equal-length arrays
is `zipWith enrich`. -/
def addDocuments (store : VStore) (docId : String) (chunks : List InChunk)
    (embeddings : List (List ℚ)) : Except String VStore :=
  if chunks.length ≠ embeddings.length then
    .error "Number of chunks and embeddings must match"
  else
    .ok (fun k => if k = docId then some (List.zipWith enrich chunks embeddings)
                  else store k)

/-- A `{text, chunkIndex, similarity, metadata}` search result
(vectorStore-v5.js lines 565-570). -/
structure SearchResult where
  text : List Char
  chunkIndex : Nat
  similarity : ℚ
  metadata : ChunkMeta
deriving DecidableEq, Repr

/-- Model of `VectorStore.search(docId, queryEmbedding, topK)`
(vectorStore-v5.js lines 557-582): throws when the document is absent,
otherwise scores every chunk of the document, sorts descending by
similarity and keeps the first `topK`.  `sim` abstracts the rational value
of `cosineSimilarity(queryEmbedding, chunk.embedding)`. -/
def search (sim : List ℚ → List ℚ → ℚ) (store : VStore) (docId : String)
    (qv : List ℚ) (topK : Nat) : Except String (List SearchResult) :=
  match store docId with
  | none => .error ("Document " ++ docId ++ " not found in vector store")
  | some chunks =>
    let results := chunks.map (fun ch =>
      SearchResult.mk ch.text ch.chunkIndex (sim qv ch.embedding) ch.metadata)
    .ok ((sortDesc (fun r => r.similarity) results).take topK)

/-- Model of `VectorStore.deleteDocument(docId)` (vectorStore-v5.js lines
594-600): `this.store.delete(docId)` returns whether the key was present
and never throws. -/
def deleteDocument (store : VStore) (docId : String) : VStore × Bool :=
  (fun k => if k = docId then none else store k, (store docId).isSome)

end VectorStore

/-! ## Derived predicates used by the claims -/

/-- A chunk whose `text` is the trim of some buffer whose untrimmed length
is the recorded `chunkLength` — the shape every `allChunks.push` site
produces. -/
def GoodChunk (c : Chunk) : Prop :=
  ∃ b : List Char, c.text = jsTrim b ∧ c.metadata.chunkLength = b.length

/-- The outcome of `cosineSimilarity` is a normal return whose value
denotes the real number 1. -/
def exceptIsOne : Except String JsNum → Prop
  | .ok j => j.isReal 1
  | .error _ => False

/-! ## Concrete instances used by counterexamples and witnesses -/

/-- The single-page input refuting claim C2: the page text `" a"` yields one
paragraph with a leading space, so the buffer `" a"` is stored trimmed as
`"a"` while `chunkLength` records the untrimmed length 2. -/
def c2Pages : List Page := [⟨1, " a".toList, 0, 2⟩]

/-- The well-formed single-page input on which claim C1 fails: the page is
the contiguous slice `[0, 11)` holding `"aaaaa\n\nbbbb"`; with
`chunkSize = 8`, `overlap = 4` the second (overlap-seeded) chunk is
recorded at `[2, 12)`, beyond the page's `endChar` 11. -/
def c1Pages : List Page := [⟨1, "aaaaa\n\nbbbb".toList, 0, 11⟩]

/-- Concrete metadata used by the claim C4 witness. -/
def c4Meta : ChunkMeta := ⟨1, 1, .single 1, 0, 1, 1⟩

/-- A one-record vector collection for the claim C4 witness. -/
def c4Store : List VecRecord := [⟨"d", 0, "t".toList, [1], c4Meta⟩]

/-- A one-document in-memory store for the claim C4 witness. -/
def c4VStore : VectorStore.VStore :=
  fun k => if k = "d" then some [⟨"t".toList, [1], 0, c4Meta⟩] else none

/-- The concrete document lookup used by the claim C5 witness. -/
def c5Docs : String → Option DocumentRecord :=
  fun k => if k = "d1" then some ⟨"f.pdf", 10, 2, 1, "processed"⟩ else none

/-- The in-memory store used by the claim C7 counterexample. -/
def c7VStore : VectorStore.VStore :=
  fun k => if k = "d" then some [] else none

/-- The vector collection used by the claim C7 witness. -/
def c7Store : List VecRecord := [⟨"d", 0, "t".toList, [1], ⟨1, 1, .single 1, 0, 1, 1⟩⟩]

/-- The initial store used by the claim C10 witness: one unrelated entry
that must survive the call. -/
def c10Store : VectorStore.VStore :=
  fun k => if k = "other" then some [] else none

/-! ## Helper lemmas -/

theorem jsTrim_length_le (s : List Char) : (jsTrim s).length ≤ s.length := by
  unfold jsTrim
  calc ((s.dropWhile isJsSpace).reverse.dropWhile isJsSpace).reverse.length
      = ((s.dropWhile isJsSpace).reverse.dropWhile isJsSpace).length := by
        simp
    _ ≤ (s.dropWhile isJsSpace).reverse.length :=
        (List.dropWhile_sublist isJsSpace).length_le
    _ = (s.dropWhile isJsSpace).length := by simp
    _ ≤ s.length := (List.dropWhile_sublist isJsSpace).length_le

theorem mem_insDesc {α : Type} (key : α → ℚ) (x : α) (l : List α) (a : α) :
    a ∈ insDesc key x l ↔ a = x ∨ a ∈ l := by
  induction l with
  | nil => simp [insDesc]
  | cons y ys ih =>
    simp only [insDesc]
    split
    · simp [List.mem_cons]
    · simp only [List.mem_cons, ih]
      tauto

theorem mem_sortDesc {α : Type} (key : α → ℚ) (l : List α) (a : α) :
    a ∈ sortDesc key l ↔ a ∈ l := by
  induction l with
  | nil => simp [sortDesc]
  | cons x xs ih =>
    simp only [sortDesc, mem_insDesc, List.mem_cons, ih]

theorem pairwise_insDesc {α : Type} (key : α → ℚ) (x : α) (l : List α)
    (h : l.Pairwise (fun a b => key b ≤ key a)) :
    (insDesc key x l).Pairwise (fun a b => key b ≤ key a) := by
  induction l with
  | nil => simp [insDesc]
  | cons y ys ih =>
    rcases List.pairwise_cons.mp h with ⟨hy, hys⟩
    simp only [insDesc]
    split
    · rename_i hlt
      refine List.pairwise_cons.mpr ⟨?_, h⟩
      intro a ha
      rcases List.mem_cons.mp ha with rfl | ha'
      · exact le_of_lt hlt
      · exact le_trans (hy a ha') (le_of_lt hlt)
    · rename_i hnlt
      refine List.pairwise_cons.mpr ⟨?_, ih hys⟩
      intro a ha
      rcases (mem_insDesc key x ys a).mp ha with rfl | ha'
      · exact le_of_not_lt hnlt
      · exact hy a ha'

theorem pairwise_sortDesc {α : Type} (key : α → ℚ) (l : List α) :
    (sortDesc key l).Pairwise (fun a b => key b ≤ key a) := by
  induction l with
  | nil => simp [sortDesc]
  | cons x xs ih => exact pairwise_insDesc key x _ ih

theorem batchLoop_eq_map (embed : String → List ℚ) (l : List String) :
    batchLoop embed l = l.map embed := by
  generalize hn : l.length = n
  induction n using Nat.strong_induction_on generalizing l with
  | _ n ih =>
    cases l with
    | nil => simp [batchLoop]
    | cons t ts =>
      rw [batchLoop]
      rw [ih ((t :: ts).drop 100).length (by subst hn; simp; omega) _ rfl]
      rw [← List.map_append, List.take_append_drop]

theorem dotProduct_comm (a b : List ℚ) : dotProduct a b = dotProduct b a := by
  induction a generalizing b with
  | nil => cases b <;> simp [dotProduct]
  | cons x xs ih =>
    cases b with
    | nil => simp [dotProduct]
    | cons y ys => simp [dotProduct, ih, mul_comm]

theorem sumSquares_nonneg (v : List ℚ) : 0 ≤ sumSquares v := by
  induction v with
  | nil => simp [sumSquares]
  | cons x xs ih => simpa [sumSquares] using add_nonneg (mul_self_nonneg x) ih

theorem dotProduct_eq_zero_left (a b : List ℚ) (h : sumSquares a = 0) :
    dotProduct a b = 0 := by
  induction a generalizing b with
  | nil => cases b <;> simp [dotProduct]
  | cons x xs ih =>
    cases b with
    | nil => simp [dotProduct]
    | cons y ys =>
      have hx2 : x * x = 0 := by
        have h1 := mul_self_nonneg x
        have h2 := sumSquares_nonneg xs
        simp only [sumSquares] at h
        linarith
      have hx : x = 0 := by
        rcases mul_self_eq_zero.mp hx2 with rfl
        rfl
      have hxs : sumSquares xs = 0 := by
        simp only [sumSquares] at h
        rw [hx2] at h
        linarith
      simp [dotProduct, hx, ih _ hxs]

theorem dotProduct_self (v : List ℚ) : dotProduct v v = sumSquares v := by
  induction v with
  | nil => simp [dotProduct, sumSquares]
  | cons x xs ih => simp [dotProduct, sumSquares, ih]

theorem procPars_spec (page : Int) (txt : List Char) (pstart : Int)
    (chunkSize overlap : Nat) :
    ∀ (ps : List (List Char)) (st : PState) (k : Nat),
    ∃ Δ st2,
      procPars page txt pstart chunkSize overlap ps st k = (Δ, st2, k + Δ.length) ∧
      Δ.map Chunk.chunkIndex = List.range' k Δ.length ∧
      ∀ c ∈ Δ, GoodChunk c := by
  intro ps
  induction ps with
  | nil =>
    intro st k
    exact ⟨[], st, by simp [procPars], by simp, by simp⟩
  | cons p ps ih =>
    intro st k
    by_cases h1 : st.currentChunk.length + p.length > chunkSize
    · by_cases h2 : 0 < (jsTrim st.currentChunk).length
      · obtain ⟨Δ, st2, hr, hidx, hgood⟩ :=
          ih (reseedState txt pstart overlap p (st.paragraphNumber + 1) st) (k + 1)
        refine ⟨mkChunkFromBuffer k page st.chunkStartParagraph
          (midRange st.chunkStartParagraph (st.paragraphNumber + 1))
          st.chunkStartChar st.currentChunk :: Δ, st2, ?_, ?_, ?_⟩
        · simp only [procPars, if_pos h1, if_pos h2, hr]
          refine Prod.ext rfl (Prod.ext rfl ?_)
          simp only [List.length_cons]
          omega
        · simp only [List.map_cons, List.length_cons, List.range'_succ]
          refine congrArg₂ _ rfl hidx
        · intro c hc
          rcases List.mem_cons.mp hc with rfl | hc'
          · exact ⟨st.currentChunk, rfl, rfl⟩
          · exact hgood c hc'
      · obtain ⟨Δ, st2, hr, hidx, hgood⟩ :=
          ih (reseedState txt pstart overlap p (st.paragraphNumber + 1) st) k
        exact ⟨Δ, st2, by simp only [procPars, if_pos h1, if_neg h2, hr], hidx, hgood⟩
    · by_cases h3 : st.currentChunk.length > 0
      · obtain ⟨Δ, st2, hr, hidx, hgood⟩ :=
          ih { st with
            currentChunk := st.currentChunk ++ ('\n' :: '\n' :: []) ++ p
            paragraphNumber := st.paragraphNumber + 1 } k
        exact ⟨Δ, st2, by simp only [procPars, if_neg h1, if_pos h3, hr], hidx, hgood⟩
      · obtain ⟨Δ, st2, hr, hidx, hgood⟩ :=
          ih { currentChunk := p
               chunkStartChar := pstart + jsIndexOf txt p
               paragraphNumber := st.paragraphNumber + 1
               chunkStartParagraph := st.paragraphNumber + 1 } k
        exact ⟨Δ, st2, by simp only [procPars, if_neg h1, if_neg h3, hr], hidx, hgood⟩

theorem procPage_spec (chunkSize overlap : Nat) (pg : Page) (k : Nat) :
    ∃ Δ, procPage chunkSize overlap pg k = (Δ, k + Δ.length) ∧
      Δ.map Chunk.chunkIndex = List.range' k Δ.length ∧
      ∀ c ∈ Δ, GoodChunk c := by
  obtain ⟨Δ, st2, hr, hidx, hgood⟩ := procPars_spec pg.pageNumber pg.text pg.startChar
    chunkSize overlap ((splitBlank pg.text).filter (fun p => 0 < (jsTrim p).length))
    ⟨[], pg.startChar, 0, 0⟩ k
  by_cases hf : 0 < (jsTrim st2.currentChunk).length
  · refine ⟨Δ ++ [mkChunkFromBuffer (k + Δ.length) pg.pageNumber st2.chunkStartParagraph
      (flushRange st2.chunkStartParagraph st2.paragraphNumber)
      st2.chunkStartChar st2.currentChunk], ?_, ?_, ?_⟩
    · simp only [procPage, hr, if_pos hf]
      refine Prod.ext rfl ?_
      simp only [List.length_append, List.length_cons, List.length_nil]
      omega
    · simp only [List.map_append, List.map_cons, List.map_nil, hidx,
        List.length_append, List.length_cons, List.length_nil]
      have := List.range'_append_1 k Δ.length 1
      simp only [List.range'_one] at this
      rw [show Δ.length + (0 + 1) = 1 + Δ.length by omega]
      exact this
    · intro c hc
      rcases List.mem_append.mp hc with hc' | hc'
      · exact hgood c hc'
      · rcases List.mem_singleton.mp hc' with rfl
        exact ⟨st2.currentChunk, rfl, rfl⟩
  · refine ⟨Δ, ?_, hidx, hgood⟩
    simp only [procPage, hr, if_neg hf]

theorem procPages_spec (chunkSize overlap : Nat) :
    ∀ (pages : List Page) (k : Nat),
    (procPages chunkSize overlap pages k).map Chunk.chunkIndex =
      List.range' k (procPages chunkSize overlap pages k).length ∧
    ∀ c ∈ procPages chunkSize overlap pages k, GoodChunk c := by
  intro pages
  induction pages with
  | nil => intro k; simp [procPages]
  | cons pg pgs ih =>
    intro k
    obtain ⟨Δ, hr, hidx, hgood⟩ := procPage_spec chunkSize overlap pg k
    obtain ⟨hidx', hgood'⟩ := ih (k + Δ.length)
    constructor
    · simp only [procPages, hr, List.map_append, hidx, hidx', List.length_append]
      have := List.range'_append_1 k Δ.length
        (procPages chunkSize overlap pgs (k + Δ.length)).length
      rw [show Δ.length + (procPages chunkSize overlap pgs (k + Δ.length)).length =
        (procPages chunkSize overlap pgs (k + Δ.length)).length + Δ.length by omega]
      exact this
    · intro c hc
      simp only [procPages, hr, List.mem_append] at hc
      rcases hc with hc' | hc'
      · exact hgood c hc'
      · exact hgood' c hc'

/-! ## Claims -/

/-- Claim C8 (confirmed): across one call to `splitIntoChunksWithMetadata`
on any sequence of pages, the `chunkIndex` values of the emitted chunks, in
emission order, are exactly `0, 1, 2, ...` — a single global counter that
is never reset between pages. -/
theorem C8_chunkIndex_strictly_increasing (pages : List Page)
    (chunkSize overlap : Nat) :
    (splitIntoChunksWithMetadata pages chunkSize overlap).map Chunk.chunkIndex =
      List.range (splitIntoChunksWithMetadata pages chunkSize overlap).length := by
  have h := (procPages_spec chunkSize overlap pages 0).1
  rw [List.range_eq_range']
  exact h


/-- Claim C2 counterexample: the chunk produced from `c2Pages` has
`text.length = 1` but `chunkLength = 2`, so `chunkLength` does not equal
the length of the stored (trimmed) text. -/
theorem C2_counterexample :
    (splitIntoChunksWithMetadata c2Pages 1000 200).map
      (fun c => (c.text.length, c.metadata.chunkLength)) = [(1, 2)] := by
  decide

/-- Claim C2 as amended: `chunkLength` records the length of the chunk's
buffer before trimming, so the stored text's length is at most
`chunkLength` (equal exactly when the buffer carries no surrounding
whitespace). -/
theorem C2_chunkLength_is_pretrim_buffer (pages : List Page)
    (chunkSize overlap : Nat) (c : Chunk)
    (hc : c ∈ splitIntoChunksWithMetadata pages chunkSize overlap) :
    c.text.length ≤ c.metadata.chunkLength ∧ GoodChunk c := by
  have hg := (procPages_spec chunkSize overlap pages 0).2 c hc
  refine ⟨?_, hg⟩
  obtain ⟨b, ht, hl⟩ := hg
  rw [ht, hl]
  exact jsTrim_length_le b

/-- Witness for the amended claim C2, at the concrete chunk produced from
`c2Pages`. -/
theorem C2_witness :
    (mkChunkFromBuffer 0 1 1 (.single 1) 0 " a".toList).text.length ≤
      (mkChunkFromBuffer 0 1 1 (.single 1) 0 " a".toList).metadata.chunkLength ∧
    GoodChunk (mkChunkFromBuffer 0 1 1 (.single 1) 0 " a".toList) :=
  C2_chunkLength_is_pretrim_buffer c2Pages 1000 200 _ (by decide)


/-- Claim C1 failing-input evaluation: the overlap-seeded chunk's character
span escapes the owning page's range, because the reseed adjustment
`chunkStartChar + currentChunk.length - overlap - paragraph.length` is
computed from the reassigned buffer and always advances the start by
exactly 2 instead of to the true overlap position. -/
theorem C1_overlap_chunk_escapes_page :
    (splitIntoChunksWithMetadata c1Pages 8 4).map
      (fun c => (c.metadata.startChar, c.metadata.endChar)) = [(0, 5), (2, 12)] ∧
    ∀ pg ∈ c1Pages, pg.endChar < 12 := by
  decide

/-- Claim C3 counterexample: on the empty text sequence the loop produces
no embeddings and the post-loop dimension log indexes `allEmbeddings[0]`,
so `generateEmbeddings([])` throws instead of returning an empty
sequence. -/
theorem C3_counterexample :
    generateEmbeddings (fun _ => [(1 : ℚ)]) [] =
      .error "Failed to generate embeddings: Cannot read properties of undefined (reading 'length')" := by
  simp [generateEmbeddings, batchLoop]

/-- Claim C3 as amended: for every non-empty `texts` (absent remote
embedding-service failure) `generateEmbeddings` returns one embedding per
input text, in input order; on the empty sequence it throws. -/
theorem C3_generateEmbeddings_nonempty (embed : String → List ℚ)
    (texts : List String) (h : texts ≠ []) :
    generateEmbeddings embed texts = .ok (texts.map embed) := by
  unfold generateEmbeddings
  rw [batchLoop_eq_map]
  cases texts with
  | nil => exact absurd rfl h
  | cons t ts => simp

/-- Witness for the amended claim C3 at a concrete embedding function and
one-element input. -/
theorem C3_witness :
    (["hello"] ≠ ([] : List String)) ∧
    generateEmbeddings (fun _ => [(1 : ℚ)]) ["hello"] = .ok [[(1 : ℚ)]] :=
  ⟨by simp, by rw [C3_generateEmbeddings_nonempty (fun _ => [(1 : ℚ)]) ["hello"] (by simp)]; rfl⟩

/-- Claim C9 (confirmed): `cosineSimilarity` is symmetric, and on any
vector of non-zero norm the self-similarity denotes exactly the real
number 1 (the idealized value of `n / (√n · √n)`). -/
theorem C9_cosine_symmetric_self_one :
    (∀ a b : List ℚ, cosineSimilarity a b = cosineSimilarity b a) ∧
    (∀ v : List ℚ, sumSquares v ≠ 0 → exceptIsOne (cosineSimilarity v v)) := by
  constructor
  · intro a b
    by_cases h : a.length = b.length
    · simp only [cosineSimilarity, h]
      rw [dotProduct_comm b a, mul_comm (sumSquares b) (sumSquares a)]
    · have h' : b.length ≠ a.length := fun e => h e.symm
      simp [cosineSimilarity, h, h']
  · intro v hv
    have hpos : 0 < sumSquares v :=
      lt_of_le_of_ne (sumSquares_nonneg v) (Ne.symm hv)
    have hnn : ¬ (sumSquares v * sumSquares v = 0) := by
      exact mul_ne_zero hv hv
    simp only [cosineSimilarity, ne_eq, not_true_eq_false, if_false,
      dotProduct_self, if_neg hnn, exceptIsOne, JsNum.isReal]
    have hq : (0 : ℝ) < ((sumSquares v : ℚ) : ℝ) := by exact_mod_cast hpos
    push_cast
    rw [Real.sqrt_mul_self (le_of_lt hq)]
    field_simp

/-- Witness for claim C9 at concrete vectors. -/
theorem C9_witness :
    cosineSimilarity [(1 : ℚ), 2] [3, 4] = cosineSimilarity [3, 4] [(1 : ℚ), 2] ∧
    exceptIsOne (cosineSimilarity [(2 : ℚ)] [(2 : ℚ)]) :=
  ⟨C9_cosine_symmetric_self_one.1 _ _,
   C9_cosine_symmetric_self_one.2 [(2 : ℚ)] (by norm_num [sumSquares])⟩

/-- Claim C6 counterexample: on the zero vector (equal lengths, zero norm)
`cosineSimilarity` does not raise — it returns the NaN produced by the
`0 / 0` division, a silently propagating non-result. -/
theorem C6_counterexample :
    cosineSimilarity [(0 : ℚ)] [(0 : ℚ)] = .ok JsNum.nan := by
  simp [cosineSimilarity, dotProduct, sumSquares]

/-- Claim C6 as amended: `cosineSimilarity` raises only on a dimension
mismatch; for equal-length vectors with a zero-norm operand it returns NaN
rather than failing fast. -/
theorem C6_zero_norm_returns_nan :
    (∀ a b : List ℚ, a.length ≠ b.length →
      cosineSimilarity a b = .error "Vectors must have same length") ∧
    (∀ a b : List ℚ, a.length = b.length →
      sumSquares a = 0 ∨ sumSquares b = 0 →
      cosineSimilarity a b = .ok JsNum.nan) := by
  constructor
  · intro a b h
    simp [cosineSimilarity, h]
  · intro a b hlen hz
    have hdot : dotProduct a b = 0 := by
      rcases hz with hz | hz
      · exact dotProduct_eq_zero_left a b hz
      · rw [dotProduct_comm]
        exact dotProduct_eq_zero_left b a hz
    have hmul : sumSquares a * sumSquares b = 0 := by
      rcases hz with hz | hz <;> simp [hz]
    simp [cosineSimilarity, hlen, hdot, hmul]

/-- Witness for the amended claim C6 at a concrete pair with a zero
operand. -/
theorem C6_witness :
    ([(1 : ℚ)].length = [(0 : ℚ)].length) ∧
    cosineSimilarity [(1 : ℚ)] [(0 : ℚ)] = .ok JsNum.nan :=
  ⟨rfl, C6_zero_norm_returns_nan.2 [(1 : ℚ)] [(0 : ℚ)] rfl
    (Or.inr (by norm_num [sumSquares]))⟩

/-- Claim C4 (confirmed): both search paths — the `/api/ask` Mongo
brute-force fallback and the in-memory `VectorStore.search` — return at
most `topK` results, every result derives from a stored record of the
requested `docId`, and results are in non-increasing score order; for any
score function. -/
theorem C4_search_topK_filtered_sorted :
    (∀ (sim : List ℚ → List ℚ → ℚ) (store : List VecRecord) (docId : String)
        (qv : List ℚ) (topK : Nat),
      (fallbackSearch sim store docId qv topK).length ≤ topK ∧
      (fallbackSearch sim store docId qv topK).Pairwise
        (fun a b => b.score ≤ a.score) ∧
      ∀ c ∈ fallbackSearch sim store docId qv topK,
        ∃ rec ∈ store, rec.docId = docId ∧ c = scoredOf sim qv rec) ∧
    (∀ (sim : List ℚ → List ℚ → ℚ) (store : VectorStore.VStore)
        (docId : String) (qv : List ℚ) (topK : Nat)
        (r : List VectorStore.SearchResult),
      VectorStore.search sim store docId qv topK = .ok r →
      r.length ≤ topK ∧
      r.Pairwise (fun a b => b.similarity ≤ a.similarity) ∧
      ∀ c ∈ r, ∃ chunks, store docId = some chunks ∧
        ∃ ch ∈ chunks, c = VectorStore.SearchResult.mk ch.text ch.chunkIndex
          (sim qv ch.embedding) ch.metadata) := by
  constructor
  · intro sim store docId qv topK
    refine ⟨List.length_take_le topK _, ?_, ?_⟩
    · exact List.Pairwise.sublist (List.take_sublist topK _)
        (pairwise_sortDesc (fun c : ScoredChunk => c.score) _)
    · intro c hc
      have hc1 : c ∈ sortDesc (fun c : ScoredChunk => c.score)
          (((store.filter (fun r => r.docId == docId)).take 50).map
            (scoredOf sim qv)) := List.mem_of_mem_take hc
      have hc2 := (mem_sortDesc (fun c : ScoredChunk => c.score) _ c).mp hc1
      obtain ⟨rec, hrec, hrfl⟩ := List.mem_map.mp hc2
      have hrec1 : rec ∈ store.filter (fun r => r.docId == docId) :=
        List.mem_of_mem_take hrec
      have hrec2 := List.mem_filter.mp hrec1
      exact ⟨rec, hrec2.1, by simpa using hrec2.2, hrfl.symm⟩
  · intro sim store docId qv topK r h
    unfold VectorStore.search at h
    cases hstore : store docId with
    | none => rw [hstore] at h; exact absurd h (by simp)
    | some chunks =>
      rw [hstore] at h
      have hr : r = (sortDesc (fun rr : VectorStore.SearchResult => rr.similarity)
          (chunks.map (fun ch => VectorStore.SearchResult.mk ch.text ch.chunkIndex
            (sim qv ch.embedding) ch.metadata))).take topK := by
        simpa using h.symm
      subst hr
      refine ⟨List.length_take_le topK _, ?_, ?_⟩
      · exact List.Pairwise.sublist (List.take_sublist topK _)
          (pairwise_sortDesc (fun rr : VectorStore.SearchResult => rr.similarity) _)
      · intro c hc
        have hc1 := List.mem_of_mem_take hc
        have hc2 := (mem_sortDesc
          (fun rr : VectorStore.SearchResult => rr.similarity) _ c).mp hc1
        obtain ⟨ch, hch, hrfl⟩ := List.mem_map.mp hc2
        exact ⟨chunks, rfl, ch, hch, hrfl.symm⟩




/-- Witness for claim C4 at a concrete store, query and `topK`. -/
theorem C4_witness :
    ((fallbackSearch dotProduct c4Store "d" [1] 2).length ≤ 2 ∧
      (fallbackSearch dotProduct c4Store "d" [1] 2).Pairwise
        (fun a b => b.score ≤ a.score) ∧
      ∀ c ∈ fallbackSearch dotProduct c4Store "d" [1] 2,
        ∃ rec ∈ c4Store, rec.docId = "d" ∧ c = scoredOf dotProduct [1] rec) ∧
    ((([VectorStore.SearchResult.mk "t".toList 0 (dotProduct [1] [1]) c4Meta] :
        List VectorStore.SearchResult)).length ≤ 2 ∧
      ([VectorStore.SearchResult.mk "t".toList 0 (dotProduct [1] [1]) c4Meta] :
        List VectorStore.SearchResult).Pairwise
        (fun a b => b.similarity ≤ a.similarity) ∧
      ∀ c ∈ ([VectorStore.SearchResult.mk "t".toList 0 (dotProduct [1] [1]) c4Meta] :
        List VectorStore.SearchResult),
        ∃ chunks, c4VStore "d" = some chunks ∧
          ∃ ch ∈ chunks, c = VectorStore.SearchResult.mk ch.text ch.chunkIndex
            (dotProduct [1] ch.embedding) ch.metadata) :=
  ⟨C4_search_topK_filtered_sorted.1 dotProduct c4Store "d" [1] 2,
   C4_search_topK_filtered_sorted.2 dotProduct c4VStore "d" [1] 2
     [VectorStore.SearchResult.mk "t".toList 0 (dotProduct [1] [1]) c4Meta] rfl⟩

/-- Claim C5 (confirmed): when the document exists and retrieval returns
zero chunks, `/api/ask` responds with the fixed informational answer and
an empty source list, identically for every generation collaborator — the
response does not depend on `generate`, so `chatModel.generateContent` is
never consulted. -/
theorem C5_zero_chunks_short_circuit
    (docs : String → Option DocumentRecord) (store : List VecRecord)
    (sim : List ℚ → List ℚ → ℚ) (qv : List ℚ)
    (primary : Except String (List ScoredChunk))
    (docId question : String) (d : DocumentRecord)
    (hdoc : docs docId = some d)
    (hid : docId ≠ "") (hq : question ≠ "")
    (hzero : relevantChunksOf primary sim store docId qv = []) :
    ∀ generate : List Char → List Char,
      askHandler docs store sim qv primary generate docId question =
        .answerJson noInfoAnswer [] := by
  intro g
  simp [askHandler, hdoc, hzero, hid, hq]


/-- Witness for claim C5: a concrete request whose primary search returns
zero chunks short-circuits to the fixed answer with no sources. -/
theorem C5_witness :
    c5Docs "d1" = some ⟨"f.pdf", 10, 2, 1, "processed"⟩ ∧
    ("d1" : String) ≠ "" ∧ ("q" : String) ≠ "" ∧
    relevantChunksOf (.ok []) dotProduct [] "d1" [] = [] ∧
    askHandler c5Docs [] dotProduct [] (.ok []) id "d1" "q" =
      .answerJson noInfoAnswer [] :=
  ⟨rfl, by decide, by decide, rfl,
   C5_zero_chunks_short_circuit c5Docs [] dotProduct [] (.ok []) "d1" "q"
     ⟨"f.pdf", 10, 2, 1, "processed"⟩ rfl (by decide) (by decide) rfl id⟩


/-- Claim C7 counterexample: after `deleteDocument("d")` on the in-memory
`VectorStore`, a search for `"d"` raises the not-found error instead of
returning an empty result sequence. -/
theorem C7_counterexample :
    VectorStore.search dotProduct
      (VectorStore.deleteDocument c7VStore "d").1 "d" [] 5 =
      .error "Document d not found in vector store" := rfl

/-- Claim C7 as amended: after the Mongo-backed delete route a fallback
search for the deleted `docId` returns the empty sequence, the route
always answers the fixed success message, and deleting an id with no
records leaves the vector collection unchanged; the in-memory
`VectorStore.deleteDocument` is likewise not an error on an absent id
(returning `false` and leaving the store unchanged) — but a subsequent
`VectorStore.search` for the deleted id throws the not-found error rather
than returning an empty sequence. -/
theorem C7_delete_semantics :
    (∀ (sim : List ℚ → List ℚ → ℚ) (store : List VecRecord)
        (docs : String → Option DocumentRecord) (docId : String)
        (qv : List ℚ) (topK : Nat),
      fallbackSearch sim (mongoDeleteRoute store docs docId).1 docId qv topK = []) ∧
    (∀ (store : List VecRecord) (docs : String → Option DocumentRecord)
        (docId : String),
      (mongoDeleteRoute store docs docId).2.2 = "Document deleted successfully") ∧
    (∀ (store : List VecRecord) (docs : String → Option DocumentRecord)
        (docId : String),
      (∀ r ∈ store, r.docId ≠ docId) →
      (mongoDeleteRoute store docs docId).1 = store) ∧
    (∀ (sim : List ℚ → List ℚ → ℚ) (store : VectorStore.VStore)
        (docId : String) (qv : List ℚ) (topK : Nat),
      VectorStore.search sim (VectorStore.deleteDocument store docId).1
        docId qv topK =
        .error ("Document " ++ docId ++ " not found in vector store")) ∧
    (∀ (store : VectorStore.VStore) (docId : String),
      store docId = none →
      (VectorStore.deleteDocument store docId).2 = false ∧
      ∀ k, (VectorStore.deleteDocument store docId).1 k = store k) := by
  refine ⟨?_, ?_, ?_, ?_, ?_⟩
  · intro sim store docs docId qv topK
    have hfil : ((mongoDeleteRoute store docs docId).1.filter
        (fun r => r.docId == docId)) = [] := by
      simp only [mongoDeleteRoute, List.filter_filter]
      rw [List.filter_eq_nil_iff]
      intro r hr
      simp
    simp [fallbackSearch, hfil, sortDesc]
  · intro store docs docId
    rfl
  · intro store docs docId h
    simp only [mongoDeleteRoute]
    rw [List.filter_eq_self]
    intro r hr
    simpa using h r hr
  · intro sim store docId qv topK
    simp [VectorStore.search, VectorStore.deleteDocument]
  · intro store docId h
    refine ⟨by simp [VectorStore.deleteDocument, h], ?_⟩
    intro k
    by_cases hk : k = docId
    · subst hk
      simp [VectorStore.deleteDocument, h]
    · simp [VectorStore.deleteDocument, hk]


/-- Witness for the amended claim C7 at concrete stores and ids. -/
theorem C7_witness :
    fallbackSearch dotProduct (mongoDeleteRoute c7Store c5Docs "d").1 "d" [1] 3 = [] ∧
    (mongoDeleteRoute c7Store c5Docs "x").2.2 = "Document deleted successfully" ∧
    (mongoDeleteRoute c7Store c5Docs "x").1 = c7Store ∧
    VectorStore.search dotProduct
      (VectorStore.deleteDocument c7VStore "e").1 "e" [1] 5 =
      .error ("Document " ++ "e" ++ " not found in vector store") ∧
    (VectorStore.deleteDocument c7VStore "e").2 = false ∧
    ∀ k, (VectorStore.deleteDocument c7VStore "e").1 k = c7VStore k :=
  ⟨C7_delete_semantics.1 dotProduct c7Store c5Docs "d" [1] 3,
   C7_delete_semantics.2.1 c7Store c5Docs "x",
   C7_delete_semantics.2.2.1 c7Store c5Docs "x" (by decide),
   C7_delete_semantics.2.2.2.1 dotProduct c7VStore "e" [1] 5,
   (C7_delete_semantics.2.2.2.2 c7VStore "e" (by decide)).1,
   (C7_delete_semantics.2.2.2.2 c7VStore "e" (by decide)).2⟩

/-- Claim C10 (confirmed): `VectorStore.addDocuments` with matching counts
replaces the entry for `docId` with exactly the enriched chunks of this
call and leaves every other entry unchanged. -/
theorem C10_addDocuments_replaces_entry
    (store : VectorStore.VStore) (docId : String)
    (chunks : List VectorStore.InChunk) (embeddings : List (List ℚ))
    (h : chunks.length = embeddings.length) :
    ∃ v', VectorStore.addDocuments store docId chunks embeddings = .ok v' ∧
      v' docId = some (List.zipWith VectorStore.enrich chunks embeddings) ∧
      ∀ k, k ≠ docId → v' k = store k := by
  refine ⟨fun k => if k = docId
      then some (List.zipWith VectorStore.enrich chunks embeddings)
      else store k, ?_, by simp, ?_⟩
  · simp [VectorStore.addDocuments, h]
  · intro k hk
    simp [hk]


/-- Witness for claim C10 at a concrete store and one-chunk call. -/
theorem C10_witness :
    ([⟨"t".toList, 0, ⟨1, 1, .single 1, 0, 1, 1⟩⟩] :
        List VectorStore.InChunk).length = [[(1 : ℚ)]].length ∧
    ∃ v', VectorStore.addDocuments c10Store "d"
        [⟨"t".toList, 0, ⟨1, 1, .single 1, 0, 1, 1⟩⟩] [[(1 : ℚ)]] = .ok v' ∧
      v' "d" = some (List.zipWith VectorStore.enrich
        [⟨"t".toList, 0, ⟨1, 1, .single 1, 0, 1, 1⟩⟩] [[(1 : ℚ)]]) ∧
      ∀ k, k ≠ "d" → v' k = c10Store k :=
  ⟨rfl, C10_addDocuments_replaces_entry c10Store "d"
    [⟨"t".toList, 0, ⟨1, 1, .single 1, 0, 1, 1⟩⟩] [[(1 : ℚ)]] rfl⟩
